import Mathlib

/-!
Shallow embedding of the ocelotter runtime core (`src/runtime.rs`, with the
near-duplicate stack in `runtime/src/interp_stack.rs`): the runtime value
model, the operand stack and its instructions, the local-variable table, the
klass/method metadata, constant-pool stringification, and the klass
repository.

Conventions of the embedding:
* Rust panics are modelled as `Except` errors, named after the spec's error
  taxonomy (`StackUnderflow`, `TypeMismatch`, ...).  Two extra variants cover
  Rust-intrinsic failure modes outside that taxonomy: `DivideByZero` (the
  `i32` division intrinsic panic) and `OutOfFuel` (potential nontermination
  of the recursive constant-pool stringifier on a cyclic pool).
* `i32` payloads are modelled as `Int`, with arithmetic results reduced by
  `wrap32` (two's-complement wrap-around, i.e. Rust release-mode semantics).
* `f32`/`f64` payloads are carried as raw bit patterns (`Nat`); no operation
  settled here inspects them.
* Rust `HashMap`s are modelled as association lists searched front-to-back;
  an insertion prepends its binding, so a later insertion of the same key
  shadows (overwrites) an earlier one, matching `HashMap::insert`.
-/

inductive ocelotErr where
  | StackUnderflow
  | TypeMismatch
  | InvalidConstantPoolIndex
  | UnsupportedConstantKind
  | MethodNotFound
  | ClassNotFound
  | IndexOutOfRange
  | DivideByZero
  | OutOfFuel
  deriving DecidableEq, Repr

/-- Two's-complement reduction of an `Int` into the `i32` range. -/
def wrap32 (n : Int) : Int := (n + 2 ^ 31) % 2 ^ 32 - 2 ^ 31

/-- `ot_obj`: mark word (`u64`) and class id (`u32`). -/
structure ot_obj where
  mark : Nat
  klassid : Nat
  deriving DecidableEq, Repr

def ot_obj.get_null : ot_obj := { mark := 0, klassid := 0 }

def ot_obj.is_null (o : ot_obj) : Bool := o.mark == 0 && o.klassid == 0

/-- `jvm_value`: tagged union of the nine runtime value kinds.  Integer kinds
carry `Int` payloads, float kinds carry raw bit patterns. -/
inductive jvm_value where
  | Boolean (val : Bool)
  | Byte (val : Int)
  | Short (val : Int)
  | Int (val : Int)
  | Long (val : Int)
  | Float (bits : Nat)
  | Double (bits : Nat)
  | Char (val : Char)
  | ObjRef (val : ot_obj)
  deriving DecidableEq, Repr

/-- `interp_eval_stack`: the operand stack; head of the list is the top. -/
structure interp_eval_stack where
  stack : List jvm_value
  deriving DecidableEq, Repr

namespace interp_eval_stack

def of : interp_eval_stack := { stack := [] }

def push (s : interp_eval_stack) (val : jvm_value) : interp_eval_stack :=
  { stack := val :: s.stack }

def pop (s : interp_eval_stack) : Except ocelotErr (jvm_value × interp_eval_stack) :=
  match s.stack with
  | [] => .error .StackUnderflow
  | v :: rest => .ok (v, { stack := rest })

/-- The `Int`-payload extraction performed by the `match` in each integer
instruction; any other kind panics ("Unexpected, non-integer value"). -/
def asInt (v : jvm_value) : Except ocelotErr Int :=
  match v with
  | .Int i => .ok i
  | _ => .error .TypeMismatch

/-- `isub`: pops `i1` (the top, pushed second), then `i2` (pushed first), and
pushes `i1 - i2`. -/
def isub (s : interp_eval_stack) : Except ocelotErr interp_eval_stack :=
  match s.pop with
  | .error e => .error e
  | .ok (v1, s1) =>
    match asInt v1 with
    | .error e => .error e
    | .ok i1 =>
      match s1.pop with
      | .error e => .error e
      | .ok (v2, s2) =>
        match asInt v2 with
        | .error e => .error e
        | .ok i2 => .ok (s2.push (.Int (wrap32 (i1 - i2))))

/-- `idiv`: pops `i1` (the top, pushed second), then `i2` (pushed first), and
pushes `i2 / i1` (Rust `i32` division: truncated). -/
def idiv (s : interp_eval_stack) : Except ocelotErr interp_eval_stack :=
  match s.pop with
  | .error e => .error e
  | .ok (v1, s1) =>
    match asInt v1 with
    | .error e => .error e
    | .ok i1 =>
      match s1.pop with
      | .error e => .error e
      | .ok (v2, s2) =>
        match asInt v2 with
        | .error e => .error e
        | .ok i2 =>
          if i1 = 0 then .error .DivideByZero
          else .ok (s2.push (.Int (wrap32 (Int.tdiv i2 i1))))

/-- `irem`: pops `i1` (the top, pushed second), then `i2` (pushed first), and
pushes `i2 % i1` (Rust `i32` remainder: truncated, sign of the dividend). -/
def irem (s : interp_eval_stack) : Except ocelotErr interp_eval_stack :=
  match s.pop with
  | .error e => .error e
  | .ok (v1, s1) =>
    match asInt v1 with
    | .error e => .error e
    | .ok i1 =>
      match s1.pop with
      | .error e => .error e
      | .ok (v2, s2) =>
        match asInt v2 with
        | .error e => .error e
        | .ok i2 =>
          if i1 = 0 then .error .DivideByZero
          else .ok (s2.push (.Int (wrap32 (Int.tmod i2 i1))))

/-- `ixor`: source is `pub fn ixor(&self) -> () {}` — a no-op that cannot
touch the stack. -/
def ixor (s : interp_eval_stack) : interp_eval_stack := s

/-- `iand`: source is `pub fn iand(&self) -> () {}` — a no-op. -/
def iand (s : interp_eval_stack) : interp_eval_stack := s

/-- `ior`: source is `pub fn ior(&self) -> () {}` — a no-op. -/
def ior (s : interp_eval_stack) : interp_eval_stack := s

/-- `i2d`: source is `pub fn i2d(&self) -> () {}` — a no-op. -/
def i2d (s : interp_eval_stack) : interp_eval_stack := s

end interp_eval_stack

/-- A primitive operation on the operand stack, for reasoning about traces of
pushes and pops. -/
inductive stack_op where
  | push (v : jvm_value)
  | pop
  deriving DecidableEq, Repr

/-- Run a trace of push/pop operations; a pop on an empty stack aborts the
trace with the error the source panics with. -/
def run_ops : List stack_op → interp_eval_stack → Except ocelotErr interp_eval_stack
  | [], s => .ok s
  | .push v :: rest, s => run_ops rest (s.push v)
  | .pop :: rest, s =>
    match s.pop with
    | .error e => .error e
    | .ok (_, s2) => run_ops rest s2

def countPush : List stack_op → Nat
  | [] => 0
  | .push _ :: rest => countPush rest + 1
  | .pop :: rest => countPush rest

def countPop : List stack_op → Nat
  | [] => 0
  | .push _ :: rest => countPop rest
  | .pop :: rest => countPop rest + 1

/-- `interp_local_vars`: fixed 256-slot register file (`lvt: [jvm_value; 256]`),
indices are `u8`, modelled as `Fin 256`. -/
structure interp_local_vars where
  lvt : Fin 256 → jvm_value

namespace interp_local_vars

/-- `of`: every slot default-initialized to `Int 0`. -/
def of : interp_local_vars := { lvt := fun _ => .Int 0 }

def load (t : interp_local_vars) (idx : Fin 256) : jvm_value := t.lvt idx

def store (t : interp_local_vars) (idx : Fin 256) (val : jvm_value) : interp_local_vars :=
  { lvt := Function.update t.lvt idx val }

/-- `iinc`: requires the slot to hold an `Int` (panics otherwise) and stores
`v + 1` — the requested increment `incr` (a `u8` in the source) is ignored. -/
def iinc (t : interp_local_vars) (idx : Fin 256) (incr : Nat) : Except ocelotErr interp_local_vars :=
  match t.lvt idx with
  | .Int v => .ok (t.store idx (.Int (wrap32 (v + 1))))
  | _ => .error .TypeMismatch

end interp_local_vars

/-- Constant-pool entry.  The source's `class` variant is spelled `clazz`
(`class` is a Lean keyword); `f32`/`f64` payloads are raw bit patterns. -/
inductive cp_entry where
  | utf8 (val : String)
  | integer (val : Int)
  | float (bits : Nat)
  | long (val : Int)
  | double (bits : Nat)
  | clazz (idx : Nat)
  | string (idx : Nat)
  | fieldref (clz_idx : Nat) (nt_idx : Nat)
  | methodref (clz_idx : Nat) (nt_idx : Nat)
  | interface_methodref (clz_idx : Nat) (nt_idx : Nat)
  | name_and_type (name_idx : Nat) (type_idx : Nat)
  deriving DecidableEq, Repr

/-- The wildcard arm of `cp_as_string`: entry kinds with no string form, for
which stringification panics. -/
def cp_entry.no_string_form : cp_entry → Bool
  | .utf8 _ => false
  | .clazz _ => false
  | .methodref _ _ => false
  | .name_and_type _ _ => false
  | _ => true

structure cp_attr where
  name_idx : Nat
  deriving DecidableEq, Repr

/-- `ot_method` metadata. -/
structure ot_method where
  klass_name : String
  flags : Nat
  name : String
  name_desc : String
  name_idx : Nat
  desc_idx : Nat
  code : List Nat
  attrs : List cp_attr
  deriving DecidableEq, Repr

namespace ot_method

/-- `ot_method::of`: note the source stores `desc_idx` into BOTH index fields
(marked `// FIXME` there), discarding the supplied `name_idx`. -/
def of (klass_name name desc : String) (flags name_idx desc_idx : Nat) : ot_method :=
  { klass_name := klass_name
    flags := flags
    name := name
    name_desc := name ++ ":" ++ desc
    attrs := []
    code := []
    name_idx := desc_idx
    desc_idx := desc_idx }

/-- `set_attr` takes `&self` in the source and does nothing. -/
def set_attr (m : ot_method) (index : Nat) (attr : cp_attr) : ot_method := m

def set_code (m : ot_method) (code : List Nat) : ot_method := { m with code := code }

def get_desc (m : ot_method) : String := m.name_desc

def get_fq_name_desc (m : ot_method) : String := m.klass_name ++ "." ++ m.name_desc

end ot_method

/-- First-match lookup in an association list (the model of `HashMap::get`). -/
def alistFind {α : Type} : List (String × α) → String → Option α
  | [], _ => none
  | (k, v) :: rest, key => if k = key then some v else alistFind rest key

/-- The lookup index built by `ot_klass::of`: one pass over the method list,
inserting `(fq_name_desc, i)` for `i = 0, 1, ...` into a `HashMap`.  A later
insertion overwrites an earlier one with the same key; as an association list
searched front-to-back this is the reversed enumeration. -/
def buildLookup (methods : List ot_method) : List (String × Nat) :=
  (methods.enum.map (fun p => (p.2.get_fq_name_desc, p.1))).reverse

structure ot_klass where
  name : String
  super_name : String
  flags : Nat
  cp_entries : List cp_entry
  methods : List ot_method
  name_desc_lookup : List (String × Nat)
  deriving DecidableEq, Repr

namespace ot_klass

def of (klass_name super_klass : String) (flags : Nat) (cp_entries : List cp_entry)
    (methods : List ot_method) : ot_klass :=
  { name := klass_name
    super_name := super_klass
    flags := flags
    cp_entries := cp_entries
    methods := methods
    name_desc_lookup := buildLookup methods }

def get_name (k : ot_klass) : String := k.name

def get_methods (k : ot_klass) : List ot_method := k.methods

/-- `get_method_by_name_and_desc` (the spec's `lookupMethodExact`): looks the
key up in `name_desc_lookup` and indexes the method list; both panics ("method
not found") are modelled as `MethodNotFound`. -/
def get_method_by_name_and_desc (k : ot_klass) (name_desc : String) :
    Except ocelotErr ot_method :=
  match alistFind k.name_desc_lookup name_desc with
  | none => .error .MethodNotFound
  | some idx =>
    match k.methods[idx]? with
    | some m => .ok m
    | none => .error .MethodNotFound

/-- `lookup_cp`: raw pool indexing; an out-of-range index panics, modelled as
`InvalidConstantPoolIndex`. -/
def lookup_cp (k : ot_klass) (cp_idx : Nat) : Except ocelotErr cp_entry :=
  match k.cp_entries[cp_idx]? with
  | some e => .ok e
  | none => .error .InvalidConstantPoolIndex

/-- `cp_as_string`: the recursive debug stringifier.  The source recurses
unboundedly (a cyclic pool would not terminate); the embedding takes explicit
fuel and reports exhaustion as `OutOfFuel`. -/
def cp_as_string (k : ot_klass) : Nat → Nat → Except ocelotErr String
  | 0, _ => .error .OutOfFuel
  | fuel + 1, i =>
    match k.lookup_cp i with
    | .error e => .error e
    | .ok (.utf8 s) => .ok s
    | .ok (.clazz utf_idx) => k.cp_as_string fuel utf_idx
    | .ok (.methodref clz_idx nt_idx) =>
      match k.cp_as_string fuel clz_idx with
      | .error e => .error e
      | .ok s1 =>
        match k.cp_as_string fuel nt_idx with
        | .error e => .error e
        | .ok s2 => .ok (s1 ++ "." ++ s2)
    | .ok (.name_and_type nidx tidx) =>
      match k.cp_as_string fuel nidx with
      | .error e => .error e
      | .ok s1 =>
        match k.cp_as_string fuel tidx with
        | .error e => .error e
        | .ok s2 => .ok (s1 ++ ":" ++ s2)
    | .ok _ => .error .UnsupportedConstantKind

end ot_klass

/-- `shared_klass_repo`: name-to-klass `HashMap`, as an association list;
`add_klass` prepends, so re-insertion of a name overwrites (first match wins
on lookup). -/
def shared_klass_repo := List (String × ot_klass)

def shared_klass_repo.new : shared_klass_repo := []

def add_klass (repo : shared_klass_repo) (k : ot_klass) : shared_klass_repo :=
  (k.get_name, k) :: repo

def lookup_klass (repo : shared_klass_repo) (klass_name : String) :
    Except ocelotErr ot_klass :=
  match alistFind repo klass_name with
  | some k => .ok k
  | none => .error .ClassNotFound

/-- `lookup_method_exact` on the repository: forwards to the named klass. -/
def lookup_method_exact (repo : shared_klass_repo) (klass_name : String)
    (fq_name_desc : String) : Except ocelotErr ot_method :=
  match alistFind repo klass_name with
  | some k => k.get_method_by_name_and_desc fq_name_desc
  | none => .error .ClassNotFound

/-- A concrete method `foo:(I)V` on class `Foo`, for witnesses. -/
def fooMethod : ot_method := ot_method.of "Foo" "foo" "(I)V" 0 1 2

/-- A concrete klass holding `fooMethod`, for witnesses. -/
def fooKlass : ot_klass := ot_klass.of "Foo" "java/lang/Object" 0 [] [fooMethod]

/-- A concrete klass whose pool holds a methodref resolving to `Foo.bar:()V`
(index 5) and an integer entry (index 6), for witnesses. -/
def fooPoolKlass : ot_klass :=
  ot_klass.of "K" "S" 0
    [ .utf8 "Foo", .clazz 0, .utf8 "bar", .utf8 "()V",
      .name_and_type 2 3, .methodref 1 4, .integer 42 ] []

/-!  ## Helper lemmas  -/

/-- `wrap32` is the identity on the `i32` range. -/
theorem wrap32_eq_self (n : Int) (hlo : -(2 ^ 31) ≤ n) (hhi : n < 2 ^ 31) :
    wrap32 n = n := by
  have h : (n + 2 ^ 31) % 2 ^ 32 = n + 2 ^ 31 :=
    Int.emod_eq_of_lt (by omega) (by omega)
  simp only [wrap32]
  omega

theorem alistFind_eq_none {α : Type} (l : List (String × α)) (key : String)
    (h : key ∉ l.map Prod.fst) : alistFind l key = none := by
  induction l with
  | nil => rfl
  | cons p rest ih =>
    have h1 : ¬(p.1 = key) := fun he => h (by simp [he])
    have h2 : key ∉ rest.map Prod.fst := fun hm => h (by simp [hm])
    simp [alistFind, h1, ih h2]

theorem alistFind_eq_some {α : Type} (l : List (String × α)) (key : String) (v : α)
    (hnd : (l.map Prod.fst).Nodup) (hmem : (key, v) ∈ l) : alistFind l key = some v := by
  induction l with
  | nil => simp at hmem
  | cons p rest ih =>
    rcases List.mem_cons.mp hmem with heq | hmem2
    · simp [alistFind, ← heq]
    · have hk : key ∈ rest.map Prod.fst := List.mem_map.mpr ⟨(key, v), hmem2, rfl⟩
      have h1 : ¬(p.1 = key) := by
        intro he
        exact (List.nodup_cons.mp hnd).1 (he ▸ hk)
      simp [alistFind, h1, ih (List.nodup_cons.mp hnd).2 hmem2]

/-- The keys of the derived lookup index are the reversed fq keys. -/
theorem buildLookup_keys (ms : List ot_method) :
    (buildLookup ms).map Prod.fst = (ms.map ot_method.get_fq_name_desc).reverse := by
  simp only [buildLookup, List.map_reverse, List.map_map]
  congr 1
  calc ms.enum.map ((fun p => (p.2.get_fq_name_desc, p.1)) · |>.fst)
      = (ms.enum.map Prod.snd).map ot_method.get_fq_name_desc := by
        rw [List.map_map]; rfl
    _ = ms.map ot_method.get_fq_name_desc := by rw [List.enum_map_snd]

theorem mem_buildLookup (ms : List ot_method) (j : Nat) (m : ot_method)
    (hj : ms[j]? = some m) : (m.get_fq_name_desc, j) ∈ buildLookup ms := by
  simp only [buildLookup, List.mem_reverse]
  exact List.mem_map.mpr ⟨(j, m), List.mk_mem_enum_iff_getElem?.mpr hj, rfl⟩

theorem run_ops_length (ops : List stack_op) :
    ∀ (s0 s : interp_eval_stack), run_ops ops s0 = .ok s →
      s.stack.length + countPop ops = s0.stack.length + countPush ops := by
  induction ops with
  | nil =>
    intro s0 s h
    simp only [run_ops, Except.ok.injEq] at h
    subst h
    simp [countPush, countPop]
  | cons op rest ih =>
    cases op with
    | push v =>
      intro s0 s h
      simp only [run_ops] at h
      have hlen := ih (s0.push v) s h
      simp only [countPush, countPop, interp_eval_stack.push] at hlen ⊢
      simp at hlen
      omega
    | pop =>
      intro s0 s h
      obtain ⟨l⟩ := s0
      cases l with
      | nil => simp [run_ops, interp_eval_stack.pop] at h
      | cons v t =>
        simp only [run_ops, interp_eval_stack.pop] at h
        have hlen := ih ⟨t⟩ s h
        simp only [countPush, countPop, List.length_cons] at hlen ⊢
        omega

theorem alistFind_foldl_add_none (ks : List ot_klass) :
    ∀ (acc : shared_klass_repo) (nm : String),
      nm ∉ ks.map ot_klass.get_name → alistFind acc nm = none →
      alistFind (ks.foldl add_klass acc) nm = none := by
  induction ks with
  | nil => intro acc nm _ h; simpa [List.foldl] using h
  | cons k rest ih =>
    intro acc nm hnm hacc
    simp only [List.foldl]
    apply ih
    · exact fun hmem => hnm (by simp [hmem])
    · have h1 : ¬(k.get_name = nm) := fun he => hnm (by simp [he])
      simp [add_klass, alistFind, h1, hacc]

/-- Single-step unfoldings of `cp_as_string`, used by the C7 proof. -/
theorem cp_as_string_utf8 (k : ot_klass) (j fl : Nat) (s : String)
    (h : k.lookup_cp j = .ok (.utf8 s)) : k.cp_as_string (fl + 1) j = .ok s := by
  simp [ot_klass.cp_as_string, h]

theorem cp_as_string_clazz (k : ot_klass) (j fl u : Nat)
    (h : k.lookup_cp j = .ok (.clazz u)) :
    k.cp_as_string (fl + 1) j = k.cp_as_string fl u := by
  simp [ot_klass.cp_as_string, h]

theorem cp_as_string_mref (k : ot_klass) (j fl clz nt : Nat) (s1 s2 : String)
    (h : k.lookup_cp j = .ok (.methodref clz nt))
    (hc : k.cp_as_string fl clz = .ok s1) (hn : k.cp_as_string fl nt = .ok s2) :
    k.cp_as_string (fl + 1) j = .ok (s1 ++ "." ++ s2) := by
  simp [ot_klass.cp_as_string, h, hc, hn]

theorem cp_as_string_nt (k : ot_klass) (j fl nidx tidx : Nat) (s1 s2 : String)
    (h : k.lookup_cp j = .ok (.name_and_type nidx tidx))
    (hn : k.cp_as_string fl nidx = .ok s1) (ht : k.cp_as_string fl tidx = .ok s2) :
    k.cp_as_string (fl + 1) j = .ok (s1 ++ ":" ++ s2) := by
  simp [ot_klass.cp_as_string, h, hn, ht]

/-!  ## Claim theorems  -/

/-- C1: executing `push(Int a); push(Int b); isub()` leaves `Int (b - a)` on
top — the value pushed SECOND minus the value pushed FIRST (`i1 - i2` with
`i1` the first pop).  In particular at the failing input `a = 5, b = 3` the
result is `Int (-2)`, not the `Int (a - b) = Int 2` the claim states. -/
theorem isub_second_minus_first :
    (∀ (a b : Int) (s : interp_eval_stack),
      ((s.push (.Int a)).push (.Int b)).isub = .ok (s.push (.Int (wrap32 (b - a)))))
    ∧ ((interp_eval_stack.of.push (.Int 5)).push (.Int 3)).isub
        = .ok (interp_eval_stack.of.push (.Int (-2))) :=
  ⟨fun _ _ _ => rfl, by rfl⟩

/-- C2: `push(Int 10); push(Int 3); idiv()` leaves `Int 3` on top, and the
same setup with `irem()` leaves `Int 1`: the dividend is pushed first, the
divisor second. -/
theorem idiv_irem_dividend_pushed_first :
    ((interp_eval_stack.of.push (.Int 10)).push (.Int 3)).idiv
      = .ok (interp_eval_stack.of.push (.Int 3))
    ∧ ((interp_eval_stack.of.push (.Int 10)).push (.Int 3)).irem
      = .ok (interp_eval_stack.of.push (.Int 1)) :=
  ⟨by rfl, by rfl⟩

/-- C3 counterexample: `fooKlass` holds a registered method whose
`name:descriptor` key is exactly `"foo:(I)V"`, yet
`lookupMethodExact("foo:(I)V")` fails with `MethodNotFound` — the lookup
index is keyed by the fully-qualified `klass.name:descriptor` key. -/
theorem lookup_method_exact_unqualified_key_fails :
    fooMethod.name_desc = "foo:(I)V"
    ∧ fooKlass.get_method_by_name_and_desc "foo:(I)V" = .error .MethodNotFound :=
  ⟨rfl, by rfl⟩

/-- C3 amended: the lookup index is keyed by the fully-qualified key
`klass_name.name:descriptor`.  On a klass whose methods' fully-qualified keys
are pairwise distinct, `lookupMethodExact` with a registered method's
fully-qualified key returns that method, and with any key that is not a
registered fully-qualified key it fails with `MethodNotFound`. -/
theorem get_method_by_fq_key (nm sup : String) (fl : Nat) (cps : List cp_entry)
    (ms : List ot_method) (hnd : (ms.map ot_method.get_fq_name_desc).Nodup)
    (j : Nat) (m : ot_method) (hj : ms[j]? = some m) (s : String)
    (habs : s ∉ ms.map ot_method.get_fq_name_desc) :
    (ot_klass.of nm sup fl cps ms).get_method_by_name_and_desc m.get_fq_name_desc = .ok m
    ∧ (ot_klass.of nm sup fl cps ms).get_method_by_name_and_desc s
        = .error .MethodNotFound := by
  have hkeysnd : ((buildLookup ms).map Prod.fst).Nodup := by
    rw [buildLookup_keys]
    exact List.nodup_reverse.mpr hnd
  constructor
  · have hfind : alistFind (buildLookup ms) m.get_fq_name_desc = some j :=
      alistFind_eq_some _ _ _ hkeysnd (mem_buildLookup ms j m hj)
    simp [ot_klass.get_method_by_name_and_desc, ot_klass.of, hfind, hj]
  · have habs2 : s ∉ (buildLookup ms).map Prod.fst := by
      rw [buildLookup_keys, List.mem_reverse]
      exact habs
    have hfind : alistFind (buildLookup ms) s = none := alistFind_eq_none _ _ habs2
    simp [ot_klass.get_method_by_name_and_desc, ot_klass.of, hfind]

/-- C3 witness: on the concrete `fooKlass`, lookup with the fully-qualified
key returns `fooMethod` and lookup with an unregistered key fails. -/
theorem get_method_by_fq_key_witness :
    fooKlass.get_method_by_name_and_desc fooMethod.get_fq_name_desc = .ok fooMethod
    ∧ fooKlass.get_method_by_name_and_desc "bar:(I)V" = .error .MethodNotFound :=
  get_method_by_fq_key "Foo" "java/lang/Object" 0 [] [fooMethod] (by decide)
    0 fooMethod rfl "bar:(I)V" (by decide)

/-- C4: on a slot holding `Int v` (in `i32` range with headroom), `iinc`
stores `Int (v + 1)` whatever the requested amount `n`, leaving all other
slots untouched; on a slot not holding an `Int`, `iinc` fails with
`TypeMismatch`. -/
theorem iinc_increments_by_exactly_one (t : interp_local_vars) (idx : Fin 256)
    (n : Nat) (v : Int) (hv : t.load idx = .Int v)
    (hlo : -(2 ^ 31) ≤ v) (hhi : v + 1 < 2 ^ 31) :
    (∃ t2, t.iinc idx n = .ok t2 ∧ t2.load idx = .Int (v + 1)
      ∧ ∀ j, j ≠ idx → t2.load j = t.load j)
    ∧ ∀ (t2 : interp_local_vars) (i2 : Fin 256) (m : Nat),
        (∀ u : Int, t2.load i2 ≠ .Int u) →
        t2.iinc i2 m = .error .TypeMismatch := by
  constructor
  · have hv2 : t.lvt idx = .Int v := hv
    refine ⟨t.store idx (.Int (wrap32 (v + 1))), ?_, ?_, ?_⟩
    · simp [interp_local_vars.iinc, hv2]
    · have hw : wrap32 (v + 1) = v + 1 := wrap32_eq_self _ (by omega) hhi
      simp [interp_local_vars.load, interp_local_vars.store, hw]
    · intro j hj
      simp [interp_local_vars.load, interp_local_vars.store,
        Function.update_noteq hj]
  · intro t2 i2 m h
    cases hc : t2.lvt i2 with
    | Int u => exact absurd hc (h u)
    | Boolean b => simp [interp_local_vars.iinc, hc]
    | Byte b => simp [interp_local_vars.iinc, hc]
    | Short b => simp [interp_local_vars.iinc, hc]
    | Long b => simp [interp_local_vars.iinc, hc]
    | Float b => simp [interp_local_vars.iinc, hc]
    | Double b => simp [interp_local_vars.iinc, hc]
    | Char b => simp [interp_local_vars.iinc, hc]
    | ObjRef b => simp [interp_local_vars.iinc, hc]

/-- C4 witness: slot 5 holds `Int 42`; `iinc(5, 17)` leaves it holding
`Int 43`. -/
theorem iinc_increments_by_exactly_one_witness :
    ∃ t2, (interp_local_vars.of.store 5 (.Int 42)).iinc 5 17 = .ok t2
      ∧ t2.load 5 = .Int (42 + 1) := by
  obtain ⟨⟨t2, h1, h2, -⟩, -⟩ :=
    iinc_increments_by_exactly_one (interp_local_vars.of.store 5 (.Int 42)) 5 17 42
      (by simp [interp_local_vars.load, interp_local_vars.store,
        Function.update_same])
      (by norm_num) (by norm_num)
  exact ⟨t2, h1, h2⟩

/-- C5: strict LIFO — after `push(v1); push(v2)`, the first pop returns `v2`
leaving `push v1` of the original stack, and the second pop returns `v1`
leaving the original stack unchanged. -/
theorem push_push_pop_lifo (v1 v2 : jvm_value) (s : interp_eval_stack) :
    ((s.push v1).push v2).pop = .ok (v2, s.push v1)
    ∧ (s.push v1).pop = .ok (v1, s) :=
  ⟨rfl, rfl⟩

/-- C6: a stack produced by any successful trace of pushes and pops from the
empty stack with equal cumulative counts is empty, so `pop()` on it fails
with `StackUnderflow`; and `pop()` on any non-empty stack never fails. -/
theorem pop_underflow_on_balanced (ops : List stack_op) (s : interp_eval_stack)
    (hrun : run_ops ops interp_eval_stack.of = .ok s)
    (hcnt : countPush ops = countPop ops) :
    s.pop = .error .StackUnderflow
    ∧ ∀ (s2 : interp_eval_stack), s2.stack ≠ [] →
        ∃ v rest, s2.pop = .ok (v, rest) := by
  constructor
  · have hlen := run_ops_length ops interp_eval_stack.of s hrun
    have hz : s.stack.length = 0 := by
      simp only [interp_eval_stack.of, List.length_nil] at hlen
      omega
    obtain ⟨l⟩ := s
    cases l with
    | nil => rfl
    | cons a b => simp at hz
  · intro s2 h2
    obtain ⟨l⟩ := s2
    cases l with
    | nil => exact absurd rfl h2
    | cons v rest => exact ⟨v, ⟨rest⟩, rfl⟩

/-- C6 witness: the trace `push(Int 1); pop` has equal counts and leaves the
empty stack, on which `pop()` fails with `StackUnderflow`. -/
theorem pop_underflow_on_balanced_witness :
    interp_eval_stack.of.pop = .error .StackUnderflow :=
  (pop_underflow_on_balanced [.push (.Int 1), .pop] interp_eval_stack.of rfl rfl).1

/-- C7: on any klass whose pool has a methodref whose class index resolves to
`"Foo"` and whose name-and-type resolves to `"bar"` / `"()V"`, the debug
stringifier returns `"Foo.bar:()V"` (given fuel ≥ 3); applied to any entry
with no string form (integer, float, long, double, string reference, field
reference, ...) it fails with `UnsupportedConstantKind`. -/
theorem cp_as_string_methodref_resolves (k : ot_klass) (i clz nt u n t : Nat)
    (h1 : k.lookup_cp i = .ok (.methodref clz nt))
    (h2 : k.lookup_cp clz = .ok (.clazz u))
    (h3 : k.lookup_cp u = .ok (.utf8 "Foo"))
    (h4 : k.lookup_cp nt = .ok (.name_and_type n t))
    (h5 : k.lookup_cp n = .ok (.utf8 "bar"))
    (h6 : k.lookup_cp t = .ok (.utf8 "()V")) :
    (∀ fuel, 3 ≤ fuel → k.cp_as_string fuel i = .ok "Foo.bar:()V")
    ∧ ∀ (j fuel : Nat) (e : cp_entry), k.lookup_cp j = .ok e →
        e.no_string_form = true →
        k.cp_as_string (fuel + 1) j = .error .UnsupportedConstantKind := by
  constructor
  · intro fuel hf
    obtain ⟨f, rfl⟩ : ∃ f, fuel = f + 3 := ⟨fuel - 3, by omega⟩
    have hclz : k.cp_as_string (f + 1 + 1) clz = .ok "Foo" := by
      rw [cp_as_string_clazz k clz (f + 1) u h2]
      exact cp_as_string_utf8 k u f "Foo" h3
    have hnt : k.cp_as_string (f + 1 + 1) nt = .ok ("bar" ++ ":" ++ "()V") :=
      cp_as_string_nt k nt (f + 1) n t "bar" "()V"
        h4 (cp_as_string_utf8 k n f "bar" h5) (cp_as_string_utf8 k t f "()V" h6)
    show k.cp_as_string (f + 1 + 1 + 1) i = .ok "Foo.bar:()V"
    rw [cp_as_string_mref k i (f + 1 + 1) clz nt "Foo" ("bar" ++ ":" ++ "()V")
      h1 hclz hnt]
    rfl
  · intro j fuel e he hform
    cases e with
    | utf8 s => simp [cp_entry.no_string_form] at hform
    | clazz x => simp [cp_entry.no_string_form] at hform
    | methodref x y => simp [cp_entry.no_string_form] at hform
    | name_and_type x y => simp [cp_entry.no_string_form] at hform
    | integer x => simp [ot_klass.cp_as_string, he]
    | float x => simp [ot_klass.cp_as_string, he]
    | long x => simp [ot_klass.cp_as_string, he]
    | double x => simp [ot_klass.cp_as_string, he]
    | string x => simp [ot_klass.cp_as_string, he]
    | fieldref x y => simp [ot_klass.cp_as_string, he]
    | interface_methodref x y => simp [ot_klass.cp_as_string, he]

/-- C7 witness: on the concrete pool of `fooPoolKlass`, the methodref at
index 5 stringifies to `"Foo.bar:()V"` and the integer entry at index 6
fails with `UnsupportedConstantKind`. -/
theorem cp_as_string_methodref_resolves_witness :
    fooPoolKlass.cp_as_string 3 5 = .ok "Foo.bar:()V"
    ∧ fooPoolKlass.cp_as_string 1 6 = .error .UnsupportedConstantKind := by
  have h := cp_as_string_methodref_resolves fooPoolKlass 5 1 4 0 2 3
    rfl rfl rfl rfl rfl rfl
  exact ⟨h.1 3 (by omega), h.2 6 0 (.integer 42) rfl rfl⟩

/-- C8: after `addKlass(K)`, `lookupKlass(K.name)` returns a klass with the
same name and method count (in fact `K` itself); `lookupKlass` on a name
never added fails with `ClassNotFound`. -/
theorem add_klass_lookup_klass (repo : shared_klass_repo) (K : ot_klass)
    (ks : List ot_klass) (nm : String) (habs : nm ∉ ks.map ot_klass.get_name) :
    (∃ K2, lookup_klass (add_klass repo K) K.get_name = .ok K2
      ∧ K2.get_name = K.get_name ∧ K2.methods.length = K.methods.length)
    ∧ lookup_klass (ks.foldl add_klass shared_klass_repo.new) nm
        = .error .ClassNotFound := by
  constructor
  · refine ⟨K, ?_, rfl, rfl⟩
    simp [lookup_klass, add_klass, alistFind]
  · have hnone := alistFind_foldl_add_none ks shared_klass_repo.new nm habs rfl
    simp [lookup_klass, hnone]

/-- C8 witness: adding `fooKlass` to the empty repository makes it
retrievable by its name, while `"Bar"` (never added) fails. -/
theorem add_klass_lookup_klass_witness :
    (∃ K2, lookup_klass (add_klass shared_klass_repo.new fooKlass) fooKlass.get_name
        = .ok K2
      ∧ K2.get_name = fooKlass.get_name
      ∧ K2.methods.length = fooKlass.methods.length)
    ∧ lookup_klass ([fooKlass].foldl add_klass shared_klass_repo.new) "Bar"
        = .error .ClassNotFound :=
  add_klass_lookup_klass shared_klass_repo.new fooKlass [fooKlass] "Bar" (by decide)

/-- C9: `ixor`, `iand`, `ior` and `i2d` take `&self` and do nothing in the
source — the stack is left exactly unchanged. -/
theorem bitwise_and_i2d_are_noops (s : interp_eval_stack) :
    s.ixor = s ∧ s.iand = s ∧ s.ior = s ∧ s.i2d = s :=
  ⟨rfl, rfl, rfl, rfl⟩

/-- C10: whatever name index the caller supplies, `ot_method::of` stores the
descriptor index in BOTH index fields, and neither `set_code` nor `set_attr`
changes them afterwards. -/
theorem ot_method_name_idx_eq_desc_idx (kn n d : String) (fl ni di : Nat)
    (c : List Nat) (i : Nat) (a : cp_attr) (m : ot_method) :
    (ot_method.of kn n d fl ni di).name_idx = di
    ∧ (ot_method.of kn n d fl ni di).desc_idx = di
    ∧ (m.set_code c).name_idx = m.name_idx
    ∧ (m.set_code c).desc_idx = m.desc_idx
    ∧ m.set_attr i a = m :=
  ⟨rfl, rfl, rfl, rfl, rfl⟩
